import Mathlib

/-!
Shallow embedding of the word-codec core of the `abi` crate
(`src/abi/src/util.rs`) together with the selector derivation used by
`src/crates/sol-macro/src/expand/error.rs`.

A `Word` is the ABI's 32-byte unit, modelled as a function from byte
index to byte value.  Machine bytes are `Fin 256`; machine integers are
`Nat` with explicit bounds or reductions where overflow matters.
Rust panics are modelled as `none`; Rust `Result` as `Except`.
-/

/-- The 32-byte word of the ABI wire format (`Word` in the source). -/
def Word : Type := Fin 32 → Fin 256

instance : DecidableEq Word := by
  unfold Word
  infer_instance

/-- The all-zero word, `Word::default()` in the source. -/
def wordDefault : Word := fun _ => 0

/-- The bytes of a word, in index order (the mirror of viewing the Rust
array as a slice). -/
def wordBytes (w : Word) : List (Fin 256) := (List.finRange 32).map w

/-- Embedding of `check_zeroes`: true iff every byte of the slice is zero. -/
def check_zeroes (data : List (Fin 256)) : Bool := data.all (fun b => b == 0)

/-- Byte `k` (counting from the least significant end) of a natural
number, as an ABI byte. -/
def natByte (v k : Nat) : Fin 256 := ⟨v / 2 ^ (8 * k) % 256, Nat.mod_lt _ (by norm_num)⟩

/-- Embedding of `pad_u32`: a word whose last 4 bytes are `value` in
big-endian order and whose first 28 bytes are zero.  The source takes a
`u32`; byte extraction below agrees with it for every `value < 2^32`. -/
def pad_u32 (value : Nat) : Word := fun i =>
  if 28 ≤ i.val then natByte value (31 - i.val) else 0

/-- Errors of the abi crate, as far as this core raises them.
Modelled from the spec: the crate's error module is not part of the
sources given; per the spec a `TypeCheckError` carries the hex-encoded
offending data and a human description of the expected shape, which is
exactly what `Error::type_check_fail(data, description)` is called with
in `util.rs`. -/
inductive Error where
  | typeCheckFail (data : String) (description : String)
deriving DecidableEq, Repr

/-- Result type of fallible abi operations (`AbiResult<T>`). -/
abbrev AbiResult (α : Type) : Type := Except Error α

instance {ε α : Type} [DecidableEq ε] [DecidableEq α] : DecidableEq (Except ε α) := fun x y =>
  match x, y with
  | .ok a, .ok b =>
    if h : a = b then .isTrue (h ▸ rfl) else .isFalse (fun he => h (Except.ok.inj he))
  | .error a, .error b =>
    if h : a = b then .isTrue (h ▸ rfl) else .isFalse (fun he => h (Except.error.inj he))
  | .ok _, .error _ => .isFalse (fun he => Except.noConfusion he)
  | .error _, .ok _ => .isFalse (fun he => Except.noConfusion he)

/-- Lower-case hex digit, as produced by `hex::encode`. -/
def hexDigit (n : Nat) : Char := if n < 10 then Char.ofNat (48 + n) else Char.ofNat (87 + n)

/-- Lower-case hex encoding of one byte. -/
def byteHex (b : Fin 256) : List Char := [hexDigit (b.val / 16), hexDigit (b.val % 16)]

/-- Embedding of `hex::encode` on a word: 64 lower-case hex characters. -/
def hexEncode (w : Word) : String := String.mk (((wordBytes w).map byteHex).flatten)

/-- Embedding of `as_u32`: reads the last 4 bytes of the word as a
big-endian 32-bit integer; with `type_check` set, first demands that the
leading 28 bytes are zero, failing with a `TypeCheckError` that carries
the hex encoding of the word and the description string from the source. -/
def as_u32 (word : Word) (type_check : Bool) : AbiResult Nat :=
  if type_check && !check_zeroes ((wordBytes word).take 28) then
    .error (.typeCheckFail (hexEncode word) "Solidity pointer (uint32)")
  else
    .ok ((word 28).val * 2 ^ 24 + (word 29).val * 2 ^ 16 + (word 30).val * 2 ^ 8 + (word 31).val)

/-- Embedding of `check_fixed_bytes`.  The source returns `bool` but
panics on a declared length of 0 or above 32 (when the word is not the
all-zero word, which short-circuits to `true` first); the panic is
modelled as `none`. -/
def check_fixed_bytes (word : Word) (len : Nat) : Option Bool :=
  if word = wordDefault then
    some true
  else if len = 0 then
    none
  else if len ≤ 31 then
    some (check_zeroes ((wordBytes word).drop len))
  else if len = 32 then
    some true
  else
    none

/-- Embedding of `check_bool`: the first 31 bytes must be zero. -/
def check_bool (slice : Word) : Bool := check_zeroes ((wordBytes slice).take 31)

/-- Embedding of `round_up_nearest_multiple`.  The source computes on
`usize`; over `Nat` the formula is identical whenever
`value + padding - 1` does not overflow the machine word. -/
def round_up_nearest_multiple (value padding : Nat) : Nat :=
  (value + padding - 1) / padding * padding

/-- Digit value used by the 256-bit string parser: `0`-`9` and the
lower-case letters (`a` = 10 …).  Any other character is not a digit. -/
def digitValue (c : Char) : Option Nat :=
  if '0' ≤ c ∧ c ≤ '9' then some (c.toNat - 48)
  else if 'a' ≤ c ∧ c ≤ 'z' then some (c.toNat - 87)
  else none

/-- One digit-accumulation step of the radix parser: fails (to `none`)
on a non-digit character or a digit at or above the radix. -/
def parseDigitsStep (radix : Nat) (acc : Option Nat) (c : Char) : Option Nat :=
  match acc, digitValue c with
  | some a, some d => if d < radix then some (a * radix + d) else none
  | _, _ => none

/-- Modelled from the spec: `U256::from_str_radix` of the big-integer
library (not part of the given sources).  Per the spec it parses the
characters as digits in the given radix into a 256-bit integer and
fails, surfacing a textual parser error, on a non-digit character or on
overflow beyond 256 bits. -/
def from_str_radix (l : List Char) (radix : Nat) : Except String Nat :=
  match l.foldl (parseDigitsStep radix) (some 0) with
  | none => .error "invalid digit"
  | some v => if v < 2 ^ 256 then .ok v else .error "overflow beyond 256 bits"

/-- Modelled from Rust's standard `u128` `FromStr` (the `s.parse::<u128>()`
call in the source): an optional leading `+` sign followed by one or more
decimal digits, with the value required to fit in 128 bits; anything
else is a parse error, modelled as `none`. -/
def parseU128 (l : List Char) : Option Nat :=
  let digits :=
    match l with
    | '+' :: rest => rest
    | _ => l
  if digits.isEmpty then none
  else if digits.all Char.isDigit then
    let v := digits.foldl (fun a c => a * 10 + (c.toNat - 48)) 0
    if v < 2 ^ 128 then some v else none
  else none

/-- Check for the literal `0x` at the start of the characters
(`s.starts_with("0x")` in the source). -/
def startsWith0x : List Char → Bool
  | '0' :: 'x' :: _ => true
  | _ => false

/-- Embedding of `StringifiedNumeric`: a numeric value arriving as a
string, a native 256-bit integer, or a native `u64`. -/
inductive StringifiedNumeric where
  | str (s : String)
  | u256 (n : Nat)
  | num (n : Nat)

/-- Embedding of `TryFrom<StringifiedNumeric> for U256` (the numeric
normalizer): native integers pass through (widened); a string is first
tried as a `u128` decimal, then as hex when it starts with `0x`, and
finally as base-10, in that order. -/
def u256_try_from (value : StringifiedNumeric) : Except String Nat :=
  match value with
  | .u256 n => .ok n
  | .num n => .ok n
  | .str s =>
    match parseU128 s.data with
    | some val => .ok val
    | none =>
      if startsWith0x s.data then
        from_str_radix (s.data.drop 2) 16
      else
        from_str_radix s.data 10

/-- Rotate a 64-bit lane left by `n` (0 ≤ n < 64). -/
def rol64 (x n : Nat) : Nat :=
  ((x <<< n) ||| (x >>> (64 - n))) &&& (2 ^ 64 - 1)

/-- The 24 round constants of Keccak-f[1600], in decimal. -/
def keccakRC : List Nat :=
  [1, 32898, 9223372036854808714,
   9223372039002292224, 32907, 2147483649,
   9223372039002292353, 9223372036854808585, 138,
   136, 2147516425, 2147483658,
   2147516555, 9223372036854775947, 9223372036854808713,
   9223372036854808579, 9223372036854808578, 9223372036854775936,
   32778, 9223372039002259466, 9223372039002292353,
   9223372036854808704, 2147483649, 9223372039002292232]

/-- Rotation offsets of the rho step, stored column-wise: the entry at
index `5*x + y` is the offset for the lane at coordinates `(x, y)`. -/
def rhoOffs : List Nat :=
  [0, 36, 3, 41, 18,
   1, 44, 10, 45, 2,
   62, 6, 43, 15, 61,
   28, 55, 25, 21, 56,
   27, 20, 39, 8, 14]

/-- Theta step of Keccak-f[1600] on a 25-lane state. -/
def keccakTheta (A : List Nat) : List Nat :=
  let C := (List.range 5).map (fun x =>
    A.getD x 0 ^^^ A.getD (x + 5) 0 ^^^ A.getD (x + 10) 0 ^^^
      A.getD (x + 15) 0 ^^^ A.getD (x + 20) 0)
  let D := (List.range 5).map (fun x =>
    C.getD ((x + 4) % 5) 0 ^^^ rol64 (C.getD ((x + 1) % 5) 0) 1)
  (List.range 25).map (fun i => A.getD i 0 ^^^ D.getD (i % 5) 0)

/-- Combined rho and pi steps of Keccak-f[1600]. -/
def keccakRhoPi (A : List Nat) : List Nat :=
  (List.range 25).foldl
    (fun B i =>
      let x := i % 5
      let y := i / 5
      B.set (5 * ((2 * x + 3 * y) % 5) + y) (rol64 (A.getD i 0) (rhoOffs.getD (5 * x + y) 0)))
    (List.replicate 25 0)

/-- Chi step of Keccak-f[1600]. -/
def keccakChi (B : List Nat) : List Nat :=
  (List.range 25).map (fun i =>
    let x := i % 5
    let y := i / 5
    B.getD i 0 ^^^
      ((B.getD (5 * y + (x + 1) % 5) 0 ^^^ (2 ^ 64 - 1)) &&& B.getD (5 * y + (x + 2) % 5) 0))

/-- One round of Keccak-f[1600] (theta, rho, pi, chi, iota). -/
def keccakRound (rc : Nat) (A : List Nat) : List Nat :=
  let C := keccakChi (keccakRhoPi (keccakTheta A))
  C.set 0 (C.getD 0 0 ^^^ rc)

/-- The full Keccak-f[1600] permutation: 24 rounds. -/
def keccakF (A : List Nat) : List Nat :=
  keccakRC.foldl (fun st rc => keccakRound rc st) A

/-- Original Keccak multi-rate padding (domain byte `0x01`, final bit
`0x80`) to a multiple of the 136-byte rate — the pre-SHA3 padding used
by `tiny_keccak::Keccak::v256`. -/
def keccakPad (msg : List Nat) : List Nat :=
  let padLen := 136 - msg.length % 136
  if padLen = 1 then msg ++ [0x81]
  else msg ++ [0x01] ++ List.replicate (padLen - 2) 0 ++ [0x80]

/-- Read up to 8 bytes as a little-endian 64-bit lane. -/
def bytesToLane (bs : List Nat) : Nat :=
  bs.foldr (fun b acc => b + 256 * acc) 0

/-- Absorb one 136-byte block into the sponge state and permute. -/
def absorbBlock (st block : List Nat) : List Nat :=
  keccakF ((List.range 25).map (fun i =>
    st.getD i 0 ^^^ (if i < 17 then bytesToLane ((block.drop (8 * i)).take 8) else 0)))

/-- Absorb `n` consecutive 136-byte blocks of `l`. -/
def absorbBlocks (st l : List Nat) : Nat → List Nat
  | 0 => st
  | n + 1 => absorbBlocks (absorbBlock st (l.take 136)) (l.drop 136) n

/-- The 8 bytes of a 64-bit lane, little-endian. -/
def laneToBytes (x : Nat) : List Nat :=
  (List.range 8).map (fun k => x >>> (8 * k) &&& 255)

/-- Embedding of the `keccak256` helper of `util.rs` (which wraps
`tiny_keccak`): the 32-byte Keccak-256 digest of a byte sequence,
as the original Keccak (not the SHA3 padding variant). -/
def keccak256 (msg : List Nat) : List Nat :=
  let padded := keccakPad msg
  let st := absorbBlocks (List.replicate 25 0) padded (padded.length / 136)
  ((List.range 4).map (fun i => laneToBytes (st.getD i 0))).flatten

/-- UTF-8 encoding of one character. -/
def utf8Char (c : Char) : List Nat :=
  let n := c.toNat
  if n < 0x80 then [n]
  else if n < 0x800 then [0xC0 ||| (n >>> 6), 0x80 ||| (n &&& 0x3F)]
  else if n < 0x10000 then
    [0xE0 ||| (n >>> 12), 0x80 ||| ((n >>> 6) &&& 0x3F), 0x80 ||| (n &&& 0x3F)]
  else
    [0xF0 ||| (n >>> 18), 0x80 ||| ((n >>> 12) &&& 0x3F),
     0x80 ||| ((n >>> 6) &&& 0x3F), 0x80 ||| (n &&& 0x3F)]

/-- UTF-8 bytes of a string. -/
def utf8Bytes (s : String) : List Nat := (s.data.map utf8Char).flatten

/-- Modelled from the spec: `crate::utils::selector` of the sol-macro
crate (its `utils` module is not among the given sources; only its
caller in `expand/error.rs` is).  Per the spec it returns the first
4 bytes of the Keccak-256 digest of the signature's UTF-8 bytes. -/
def selector (s : String) : List Nat := (keccak256 (utf8Bytes s)).take 4

/-! Bridging lemmas between list slices of a word and per-index facts. -/

theorem check_zeroes_iff (l : List (Fin 256)) : check_zeroes l = true ↔ ∀ b ∈ l, b = 0 := by
  simp [check_zeroes, List.all_eq_true]

theorem check_zeroes_take_iff (w : Word) (n : Nat) :
    check_zeroes ((wordBytes w).take n) = true ↔ ∀ i : Fin 32, i.val < n → w i = 0 := by
  rw [check_zeroes_iff]
  constructor
  · intro h i hi
    apply h
    rw [wordBytes, ← List.map_take, List.mem_map]
    refine ⟨i, List.mem_take_iff_getElem.mpr ⟨i.val, by simp; omega, by simp⟩, rfl⟩
  · intro h b hb
    rw [wordBytes, ← List.map_take, List.mem_map] at hb
    obtain ⟨i, hi, rfl⟩ := hb
    rw [List.mem_take_iff_getElem] at hi
    obtain ⟨j, hj, hji⟩ := hi
    simp at hji
    subst hji
    apply h
    simp at hj ⊢
    omega

theorem check_zeroes_drop_iff (w : Word) (n : Nat) :
    check_zeroes ((wordBytes w).drop n) = true ↔ ∀ i : Fin 32, n ≤ i.val → w i = 0 := by
  rw [check_zeroes_iff]
  constructor
  · intro h i hi
    apply h
    rw [wordBytes, ← List.map_drop, List.mem_map]
    refine ⟨i, List.mem_drop_iff_getElem.mpr
      ⟨i.val - n, by simp; omega, by simp [Fin.ext_iff]; omega⟩, rfl⟩
  · intro h b hb
    rw [wordBytes, ← List.map_drop, List.mem_map] at hb
    obtain ⟨i, hi, rfl⟩ := hb
    rw [List.mem_drop_iff_getElem] at hi
    obtain ⟨j, hj, hji⟩ := hi
    simp at hji
    subst hji
    apply h
    simp

/-- C7: for every 32-bit `v`, `pad_u32 v` is a word whose first 28 bytes
are zero and whose last 4 bytes read, big-endian, back to `v`; in
particular `pad_u32 0` is the all-zero word and `pad_u32 0xffffffff`
ends in four `0xff` bytes after 28 zeros. -/
theorem pad_u32_spec (v : Nat) (h : v < 2 ^ 32) :
    (∀ i : Fin 32, i.val < 28 → pad_u32 v i = 0) ∧
    (pad_u32 v 28).val * 2 ^ 24 + (pad_u32 v 29).val * 2 ^ 16 +
      (pad_u32 v 30).val * 2 ^ 8 + (pad_u32 v 31).val = v ∧
    pad_u32 0 = wordDefault ∧
    wordBytes (pad_u32 4294967295) = List.replicate 28 0 ++ [255, 255, 255, 255] := by
  refine ⟨?_, ?_, by decide, by decide⟩
  · intro i hi
    simp only [pad_u32]
    rw [if_neg (by omega)]
  · show (natByte v 3).val * 2 ^ 24 + (natByte v 2).val * 2 ^ 16 +
      (natByte v 1).val * 2 ^ 8 + (natByte v 0).val = v
    simp only [natByte]
    omega

/-- Witness for C7 at `v = 0xdeadbeef`. -/
theorem pad_u32_spec_witness :
    (pad_u32 3735928559 28).val * 2 ^ 24 + (pad_u32 3735928559 29).val * 2 ^ 16 +
      (pad_u32 3735928559 30).val * 2 ^ 8 + (pad_u32 3735928559 31).val = 3735928559 :=
  (pad_u32_spec 3735928559 (by norm_num)).2.1

/-- C1: decoding the padded word of a 32-bit value in strict mode
round-trips: `as_u32 (pad_u32 v) true = Ok v`. -/
theorem as_u32_pad_u32_roundtrip (v : Nat) (h : v < 2 ^ 32) :
    as_u32 (pad_u32 v) true = .ok v := by
  have hz : check_zeroes ((wordBytes (pad_u32 v)).take 28) = true := by
    rw [check_zeroes_take_iff]
    intro i hi
    simp only [pad_u32]
    rw [if_neg (by omega)]
  simp only [as_u32, hz, Bool.not_true, Bool.and_false, Bool.false_eq_true, if_false,
    Bool.true_and]
  show Except.ok ((natByte v 3).val * 2 ^ 24 + (natByte v 2).val * 2 ^ 16 +
    (natByte v 1).val * 2 ^ 8 + (natByte v 0).val) = _
  simp only [natByte]
  congr 1
  omega

/-- Witness for C1 at `v = 7`. -/
theorem as_u32_pad_u32_roundtrip_witness : as_u32 (pad_u32 7) true = .ok 7 :=
  as_u32_pad_u32_roundtrip 7 (by norm_num)

/-- C10: lenient decoding never fails: for every word, `as_u32` without
the type check returns `Ok` with the big-endian value of the last 4
bytes, whatever the first 28 bytes hold. -/
theorem as_u32_lenient_total (w : Word) :
    as_u32 w false =
      .ok ((w 28).val * 2 ^ 24 + (w 29).val * 2 ^ 16 + (w 30).val * 2 ^ 8 + (w 31).val) :=
  rfl

/-- C3: for a declared length in [1,31], `check_fixed_bytes` accepts a
word exactly when its bytes at indices at or above the length are all
zero; length 32 accepts every word; the all-zero word is accepted for
every length in [1,32]. -/
theorem check_fixed_bytes_spec (w : Word) (len : Nat) :
    (1 ≤ len → len ≤ 31 →
      (check_fixed_bytes w len = some true ↔ ∀ i : Fin 32, len ≤ i.val → w i = 0)) ∧
    check_fixed_bytes w 32 = some true ∧
    (1 ≤ len → len ≤ 32 → check_fixed_bytes wordDefault len = some true) := by
  refine ⟨?_, ?_, ?_⟩
  · intro h1 h31
    by_cases hw : w = wordDefault
    · subst hw
      simp only [check_fixed_bytes, if_pos rfl]
      constructor
      · intro _ i _
        rfl
      · intro _
        rfl
    · rw [check_fixed_bytes, if_neg hw, if_neg (by omega), if_pos h31]
      rw [Option.some_inj, check_zeroes_drop_iff]
  · by_cases hw : w = wordDefault
    · rw [check_fixed_bytes, if_pos hw]
    · rw [check_fixed_bytes, if_neg hw, if_neg (by omega), if_neg (by omega), if_pos rfl]
  · intro _ _
    rw [check_fixed_bytes, if_pos rfl]

/-- Witness for C3 at the word with a single nonzero byte at index 0 and
declared length 1. -/
theorem check_fixed_bytes_spec_witness :
    check_fixed_bytes (fun i => if i.val = 0 then 1 else 0) 1 = some true ↔
      ∀ i : Fin 32, 1 ≤ i.val → (fun i : Fin 32 => if i.val = 0 then (1 : Fin 256) else 0) i = 0 :=
  (check_fixed_bytes_spec (fun i => if i.val = 0 then 1 else 0) 1).1 (by norm_num) (by norm_num)

/-- C4 counterexample: on the all-zero word a declared length of 0 does
not abort; `check_fixed_bytes` returns `true` through its all-zero
short-circuit, contradicting the claim that every word aborts there. -/
theorem check_fixed_bytes_zero_len_counterexample :
    check_fixed_bytes wordDefault 0 = some true ∧ check_fixed_bytes wordDefault 0 ≠ none := by
  refine ⟨by decide, by decide⟩

/-- C4 amended: for every word other than the all-zero word, a declared
length of 0 or above 32 aborts via panic (modelled as `none`) rather
than returning a boolean; the all-zero word short-circuits to `true`
before the length is inspected. -/
theorem check_fixed_bytes_panic_amended (w : Word) (len : Nat)
    (hw : w ≠ wordDefault) (hlen : len = 0 ∨ 32 < len) :
    check_fixed_bytes w len = none := by
  rcases hlen with h0 | hbig
  · rw [check_fixed_bytes, if_neg hw, if_pos h0]
  · rw [check_fixed_bytes, if_neg hw, if_neg (by omega), if_neg (by omega), if_neg (by omega)]

/-- Witness for the amended C4 at a nonzero word and length 33. -/
theorem check_fixed_bytes_panic_amended_witness :
    check_fixed_bytes (fun i => if i.val = 0 then 1 else 0) 33 = none :=
  check_fixed_bytes_panic_amended (fun i => if i.val = 0 then 1 else 0) 33
    (by decide) (Or.inr (by norm_num))

/-- C2 counterexample: at the word with one nonzero high byte, strict
decoding fails, but the error's description is the source's literal
"Solidity pointer (uint32)", not "expected a pointer-compatible word"
as claimed. -/
theorem as_u32_description_counterexample :
    as_u32 (fun i => if i.val = 0 then 1 else 0) true ≠
      Except.error
        (Error.typeCheckFail (hexEncode (fun i => if i.val = 0 then 1 else 0))
          "expected a pointer-compatible word") ∧
    as_u32 (fun i => if i.val = 0 then 1 else 0) true =
      Except.error
        (Error.typeCheckFail (hexEncode (fun i => if i.val = 0 then 1 else 0))
          "Solidity pointer (uint32)") := by
  exact ⟨by decide, by decide⟩

/-- C2 amended: for every word whose first 28 bytes are not all zero,
strict decoding fails with a `TypeCheckError` carrying the hex-encoded
word and the description "Solidity pointer (uint32)", while lenient
decoding succeeds with the big-endian value of the last 4 bytes. -/
theorem as_u32_strict_amended (w : Word) (h : ¬ ∀ i : Fin 32, i.val < 28 → w i = 0) :
    as_u32 w true = .error (.typeCheckFail (hexEncode w) "Solidity pointer (uint32)") ∧
    as_u32 w false =
      .ok ((w 28).val * 2 ^ 24 + (w 29).val * 2 ^ 16 + (w 30).val * 2 ^ 8 + (w 31).val) := by
  have hz : check_zeroes ((wordBytes w).take 28) = false := by
    rw [← Bool.not_eq_true, check_zeroes_take_iff]
    exact h
  refine ⟨?_, rfl⟩
  rw [as_u32, hz]
  rfl

/-- Witness for the amended C2 at the word with one nonzero high byte. -/
theorem as_u32_strict_amended_witness :
    as_u32 (fun i => if i.val = 0 then 1 else 0) true =
      Except.error
        (Error.typeCheckFail (hexEncode (fun i => if i.val = 0 then 1 else 0))
          "Solidity pointer (uint32)") :=
  (as_u32_strict_amended (fun i => if i.val = 0 then 1 else 0) (by decide)).1

/-- C8: for a positive unit, `round_up_nearest_multiple` matches the
floor-division formula and yields the least multiple of the unit at or
above the value; the four literal examples from the spec hold. -/
theorem round_up_nearest_multiple_spec (value unit : Nat) (h : 0 < unit) :
    round_up_nearest_multiple value unit = (value + unit - 1) / unit * unit ∧
    unit ∣ round_up_nearest_multiple value unit ∧
    value ≤ round_up_nearest_multiple value unit ∧
    (∀ m, unit ∣ m → value ≤ m → round_up_nearest_multiple value unit ≤ m) ∧
    round_up_nearest_multiple 0 32 = 0 ∧
    round_up_nearest_multiple 1 32 = 32 ∧
    round_up_nearest_multiple 32 32 = 32 ∧
    round_up_nearest_multiple 33 32 = 64 := by
  refine ⟨rfl, Dvd.intro_left _ rfl, ?_, ?_, by decide, by decide, by decide, by decide⟩
  · rw [round_up_nearest_multiple]
    have hmod := Nat.mod_lt (value + unit - 1) h
    have hdm := Nat.div_add_mod (value + unit - 1) unit
    rw [Nat.mul_comm] at hdm
    set x := (value + unit - 1) / unit * unit with hx
    omega
  · intro m hdvd hle
    obtain ⟨k, rfl⟩ := hdvd
    rw [round_up_nearest_multiple]
    have hdiv : (value + unit - 1) / unit ≤ k := by
      have h1 : value + unit - 1 ≤ unit - 1 + unit * k := by omega
      calc (value + unit - 1) / unit ≤ (unit - 1 + unit * k) / unit :=
            Nat.div_le_div_right h1
        _ = (unit - 1) / unit + k := Nat.add_mul_div_left _ _ h
        _ = k := by rw [Nat.div_eq_of_lt (by omega), Nat.zero_add]
    calc (value + unit - 1) / unit * unit ≤ k * unit := Nat.mul_le_mul_right _ hdiv
      _ = unit * k := Nat.mul_comm _ _

/-- Witness for C8 at `value = 33`, `unit = 32`. -/
theorem round_up_nearest_multiple_spec_witness :
    32 ∣ round_up_nearest_multiple 33 32 ∧ 33 ≤ round_up_nearest_multiple 33 32 :=
  ⟨(round_up_nearest_multiple_spec 33 32 (by norm_num)).2.1,
   (round_up_nearest_multiple_spec 33 32 (by norm_num)).2.2.1⟩

theorem foldl_parseDigitsStep_none (radix : Nat) (l : List Char) :
    l.foldl (parseDigitsStep radix) none = none := by
  induction l with
  | nil => rfl
  | cons c t ih =>
    rw [List.foldl_cons]
    cases hd : digitValue c <;> simp only [parseDigitsStep, hd] <;> exact ih

/-- C5: the numeric normalizer tries, in order, the 128-bit decimal
fast path, then hex after a `0x`, then general base-10; consequently
`"0x10"`, `"16"` and the native 16 all normalize to 16, while
`"not_a_number"` and `"0xzz"` fail with a conversion error. -/
theorem stringified_numeric_normalization :
    (∀ (s : String) (n : Nat), parseU128 s.data = some n → u256_try_from (.str s) = .ok n) ∧
    (∀ s : String, parseU128 s.data = none → startsWith0x s.data = true →
      u256_try_from (.str s) = from_str_radix (s.data.drop 2) 16) ∧
    (∀ s : String, parseU128 s.data = none → startsWith0x s.data = false →
      u256_try_from (.str s) = from_str_radix s.data 10) ∧
    u256_try_from (.str "0x10") = .ok 16 ∧
    u256_try_from (.str "16") = .ok 16 ∧
    u256_try_from (.num 16) = .ok 16 ∧
    (u256_try_from (.str "not_a_number")).isOk = false ∧
    (u256_try_from (.str "0xzz")).isOk = false := by
  refine ⟨?_, ?_, ?_, rfl, rfl, rfl, rfl, rfl⟩
  · intro s n h
    simp only [u256_try_from, h]
  · intro s h h0
    simp only [u256_try_from, h, h0, if_true]
  · intro s h h0
    simp only [u256_try_from, h, h0, Bool.false_eq_true, if_false]

/-- Witness for C5 at the decimal string "16". -/
theorem stringified_numeric_normalization_witness :
    u256_try_from (.str "16") = .ok 16 :=
  stringified_numeric_normalization.1 "16" 16 rfl

/-- C6 counterexample: the string "+16" begins with the sign character
`+`, yet normalization succeeds with 16 (Rust's `u128` decimal parser,
the first tier, accepts an optional leading `+`). -/
theorem plus_sign_counterexample :
    ("+16".data.head? = some '+') ∧ u256_try_from (.str "+16") = .ok 16 :=
  ⟨rfl, rfl⟩

/-- C6 amended: a string beginning with `-` always fails to normalize
(no tier accepts it); a leading `+` however is accepted by the 128-bit
decimal fast path, as in `"+16"` normalizing to 16. -/
theorem sign_handling_amended :
    (∀ s : String, s.data.head? = some '-' → (u256_try_from (.str s)).isOk = false) ∧
    u256_try_from (.str "+16") = .ok 16 := by
  refine ⟨?_, rfl⟩
  intro s h
  obtain ⟨rest, hs⟩ : ∃ t, s.data = '-' :: t := by
    cases hl : s.data with
    | nil => rw [hl] at h; exact absurd h (by simp)
    | cons a t =>
      rw [hl] at h
      simp at h
      exact ⟨t, by rw [h]⟩
  simp only [u256_try_from, hs]
  have h128 : parseU128 ('-' :: rest) = none := rfl
  have h0x : startsWith0x ('-' :: rest) = false := rfl
  simp only [h128, h0x, Bool.false_eq_true, if_false]
  rw [from_str_radix, List.foldl_cons]
  have hstep : parseDigitsStep 10 (some 0) '-' = none := rfl
  rw [hstep, foldl_parseDigitsStep_none]
  rfl

/-- Witness for the amended C6 at the string "-16". -/
theorem sign_handling_amended_witness :
    (u256_try_from (.str "-16")).isOk = false :=
  sign_handling_amended.1 "-16" rfl

set_option maxRecDepth 10000 in
/-- C9: the selector of a signature string is the first 4 bytes of the
Keccak-256 digest of its UTF-8 bytes (deterministic, being a pure
function), and at the ERC-20 transfer signature it equals the
well-known constant `0xa9059cbb`. -/
theorem selector_spec :
    (∀ s : String, selector s = (keccak256 (utf8Bytes s)).take 4) ∧
    selector "transfer(address,uint256)" = [0xa9, 0x05, 0x9c, 0xbb] :=
  ⟨fun _ => rfl, by decide⟩
